import Mathlib

/-!
Verification development for the TensorFlowTTS dataset adapters
(tensorflow_tts/datasets/audio_mel_dataset.py) and the GAN trainer base
class (tensorflow_tts/trainers/base_trainer.py).

The Python code is shallowly embedded: loaded tensors are modelled by
lists (so the leading dimension, Python's shape[0], is the list length),
file paths are strings, the injected loader callables are opaque Lean
functions, and fallible construction returns Except.  The external
find_files utility (not part of the two embedded files) is kept abstract
as a parameter of the constructors.
-/

namespace TTS

/-! ### String helpers mirroring the Python library functions used -/

/-- Code-point lexicographic comparison of character lists, the order Python
uses when sorting a list of str values. -/
def charListLe : List Char → List Char → Bool
  | [], _ => true
  | _ :: _, [] => false
  | a :: as, b :: bs =>
    if a.toNat < b.toNat then true
    else if b.toNat < a.toNat then false
    else charListLe as bs

/-- Lexicographic ≤ on strings by code points (Python str ordering). -/
def strLe (a b : String) : Bool := charListLe a.toList b.toList

/-- Insert into a sorted list, keeping the new element before equal ones
coming later; building block of the embedding of Python sorted(). -/
def insertSorted (x : String) : List String → List String
  | [] => [x]
  | y :: ys => if strLe x y then x :: y :: ys else y :: insertSorted x ys

/-- Embedding of Python sorted() on a list of strings: a structurally
recursive insertion sort with the code-point lexicographic order.  Python
sorted is a stable mergesort, but the string order is antisymmetric, so the
sorted permutation is unique and insertion sort computes the same list. -/
def sortStrings : List String → List String
  | [] => []
  | x :: xs => insertSorted x (sortStrings xs)

/-- Substring test on characters: Python pat in s. -/
def charsContains (pat : List Char) : List Char → Bool
  | [] => pat.isEmpty
  | c :: rest => pat.isPrefixOf (c :: rest) || charsContains pat rest

/-- Python pat in s for strings. -/
def strContains (s pat : String) : Bool := charsContains pat.toList s.toList

/-- Embedding of os.path.basename: the suffix after the last slash. -/
def pyBasename (f : String) : String :=
  String.mk ((f.toList.reverse.takeWhile (fun c => c ≠ '/')).reverse)

/-- Embedding of os.path.splitext(p)[0] for a basename (no slash handling
needed because the source always applies it to a basename): drop the part
from the last dot on, unless every character before that dot is itself a
dot, in which case the whole name is returned (CPython genericpath). -/
def splitextRoot (s : String) : String :=
  let cs := s.toList
  match (cs.enum.filter (fun p => p.2 == '.')).getLast? with
  | none => s
  | some d => if (cs.take d.1).any (fun c => c != '.') then String.mk (cs.take d.1) else s

/-- One pass of Python str.replace on character lists: replace the
non-overlapping occurrences of pat left to right.  The fuel argument makes
the recursion structural; each step consumes one unit and at least the head
character, so fuel = length + 1 never runs out. -/
def replaceFuel (pat rep : List Char) : Nat → List Char → List Char
  | 0, s => s
  | _ + 1, [] => []
  | fuel + 1, c :: rest =>
    if pat.isPrefixOf (c :: rest) && !pat.isEmpty then
      rep ++ replaceFuel pat rep fuel (List.drop (pat.length - 1) rest)
    else c :: replaceFuel pat rep fuel rest

/-- Embedding of Python s.replace(pat, rep) for the non-empty patterns the
source uses ("-wave.npy", "-feats.npy"): every occurrence is replaced, not
only a trailing one. -/
def pyReplace (s pat rep : String) : String :=
  String.mk (replaceFuel pat.toList rep.toList (s.toList.length + 1) s.toList)

/-! ### Dataset adapters -/

/-- Failure at dataset construction or iteration.  The construction-time
assert statements of the Python source are the spec's DataIntegrityError;
out-of-range list subscripts are Python's IndexError. -/
inductive DatasetError
  | dataIntegrityError (msg : String)
  | indexError
deriving DecidableEq

/-- Python list subscripting mapped over an index list:
[l[idx] for idx in idxs], failing like Python when a subscript is out of
range. -/
def pySelect (l : List α) : List Nat → Option (List α)
  | [] => some []
  | i :: idxs =>
    match l[i]?, pySelect l idxs with
    | some x, some r => some (x :: r)
    | _, _ => none

/-- The audio-threshold filtering block of AudioMelDataset.init: compute
every audio length eagerly, keep the indices whose length strictly exceeds
the threshold, and subscript both parallel lists with that index set. -/
def audioThresholdFilter (audio_load_fn : String → List A) (t : Int)
    (audio_files mel_files : List String) : Option (List String × List String) :=
  let audio_lengths := audio_files.map (fun f => ((audio_load_fn f).length : Int))
  let idxs := (List.range audio_files.length).filter (fun idx => t < audio_lengths.getD idx 0)
  match pySelect audio_files idxs, pySelect mel_files idxs with
  | some a, some m => some (a, m)
  | _, _ => none

/-- The mel-threshold filtering block of AudioMelDataset.init, symmetric to
the audio one: indices come from the mel lengths and subscript both lists. -/
def melThresholdFilter (mel_load_fn : String → List M) (t : Int)
    (audio_files mel_files : List String) : Option (List String × List String) :=
  let mel_lengths := mel_files.map (fun f => ((mel_load_fn f).length : Int))
  let idxs := (List.range mel_files.length).filter (fun idx => t < mel_lengths.getD idx 0)
  match pySelect audio_files idxs, pySelect mel_files idxs with
  | some a, some m => some (a, m)
  | _, _ => none

/-- State of a constructed AudioMelDataset: the fields the Python init
stores on self.  Audio tensors are lists over A, mel tensors lists over M
(shape[0] = list length). -/
structure AudioMelDataset (A M : Type) where
  utt_ids : List String
  audio_files : List String
  mel_files : List String
  audio_load_fn : String → List A
  mel_load_fn : String → List M
  return_utt_id : Bool

/-- Embedding of AudioMelDataset.__init__.  find_files is the external
discovery utility, passed in abstractly; the constructor sorts both match
lists, applies the optional threshold filters, runs the two assert
statements, derives the utterance ids from the audio query convention and
returns the dataset, or the error the Python code would raise. -/
def AudioMelDataset.init (find_files : String → String → List String)
    (root_dir audio_query mel_query : String)
    (audio_load_fn : String → List A) (mel_load_fn : String → List M)
    (audio_length_threshold mel_length_threshold : Option Int)
    (return_utt_id : Bool) : Except DatasetError (AudioMelDataset A M) :=
  let audio_files0 := sortStrings (find_files root_dir audio_query)
  let mel_files0 := sortStrings (find_files root_dir mel_query)
  let stage1 :=
    match audio_length_threshold with
    | none => some (audio_files0, mel_files0)
    | some t => audioThresholdFilter audio_load_fn t audio_files0 mel_files0
  match stage1 with
  | none => .error .indexError
  | some (audio_files1, mel_files1) =>
    let stage2 :=
      match mel_length_threshold with
      | none => some (audio_files1, mel_files1)
      | some t => melThresholdFilter mel_load_fn t audio_files1 mel_files1
    match stage2 with
    | none => .error .indexError
    | some (audio_files2, mel_files2) =>
      if audio_files2.length = 0 then
        .error (.dataIntegrityError "Not found any audio files")
      else if audio_files2.length ≠ mel_files2.length then
        .error (.dataIntegrityError "Number of audio and mel files are different")
      else
        let utt_ids :=
          if strContains audio_query ".npy" then
            audio_files2.map (fun f => pyReplace (pyBasename f) "-wave.npy" "")
          else
            audio_files2.map (fun f => splitextRoot (pyBasename f))
        .ok { utt_ids := utt_ids, audio_files := audio_files2, mel_files := mel_files2,
              audio_load_fn := audio_load_fn, mel_load_fn := mel_load_fn,
              return_utt_id := return_utt_id }

/-- One record yielded by AudioMelDataset.generator: (utt_id, audio, mel)
when return_utt_id is set, (audio, mel) otherwise. -/
inductive AMItem (A M : Type)
  | withId (utt_id : String) (audio : List A) (mel : List M)
  | noId (audio : List A) (mel : List M)
deriving DecidableEq

/-- The (audio, mel) payload of a yielded record, id tag dropped. -/
def amPayload : AMItem A M → List A × List M
  | .withId _ a m => (a, m)
  | .noId a m => (a, m)

/-- Loop of AudioMelDataset.generator starting at enumeration index i: one
iteration per supplied id, subscripting the stored file lists positionally
and loading on demand; an out-of-range subscript ends the run with the
IndexError Python would raise, after the items already yielded. -/
def generatorGo (d : AudioMelDataset A M) : Nat → List String → List (AMItem A M) × Option DatasetError
  | _, [] => ([], none)
  | i, uid :: rest =>
    match d.audio_files[i]? with
    | none => ([], some .indexError)
    | some audio_file =>
      match d.mel_files[i]? with
      | none => ([], some .indexError)
      | some mel_file =>
        let audio := d.audio_load_fn audio_file
        let mel := d.mel_load_fn mel_file
        let item := if d.return_utt_id then AMItem.withId uid audio mel else AMItem.noId audio mel
        let rec_rest := generatorGo d (i + 1) rest
        (item :: rec_rest.1, rec_rest.2)

/-- Embedding of AudioMelDataset.generator: the full lazy run, returned as
the list of yielded records plus the error, if any, that ends the run. -/
def AudioMelDataset.generator (d : AudioMelDataset A M) (utt_ids : List String) :
    List (AMItem A M) × Option DatasetError :=
  generatorGo d 0 utt_ids

/-- Embedding of AudioMelDataset.get_len_dataset. -/
def AudioMelDataset.get_len_dataset (d : AudioMelDataset A M) : Nat :=
  d.utt_ids.length

/-- State of a constructed AudioDataset (audio-only variant). -/
structure AudioDataset (A : Type) where
  utt_ids : List String
  audio_files : List String
  audio_load_fn : String → List A
  return_utt_id : Bool

/-- The audio-threshold filtering block of AudioDataset.init (single list). -/
def audioOnlyThresholdFilter (audio_load_fn : String → List A) (t : Int)
    (audio_files : List String) : Option (List String) :=
  let audio_lengths := audio_files.map (fun f => ((audio_load_fn f).length : Int))
  let idxs := (List.range audio_files.length).filter (fun idx => t < audio_lengths.getD idx 0)
  pySelect audio_files idxs

/-- Embedding of AudioDataset.__init__. -/
def AudioDataset.init (find_files : String → String → List String)
    (root_dir audio_query : String) (audio_load_fn : String → List A)
    (audio_length_threshold : Option Int) (return_utt_id : Bool) :
    Except DatasetError (AudioDataset A) :=
  let audio_files0 := sortStrings (find_files root_dir audio_query)
  let stage1 :=
    match audio_length_threshold with
    | none => some audio_files0
    | some t => audioOnlyThresholdFilter audio_load_fn t audio_files0
  match stage1 with
  | none => .error .indexError
  | some audio_files1 =>
    if audio_files1.length = 0 then
      .error (.dataIntegrityError "Not found any audio files")
    else
      let utt_ids :=
        if strContains audio_query ".npy" then
          audio_files1.map (fun f => pyReplace (pyBasename f) "-wave.npy" "")
        else
          audio_files1.map (fun f => splitextRoot (pyBasename f))
      .ok { utt_ids := utt_ids, audio_files := audio_files1,
            audio_load_fn := audio_load_fn, return_utt_id := return_utt_id }

/-- Modelled from the spec: the spec describes utterance-id derivation for
flat-array files as stripping the fixed suffix token "-wave.npy" from the
filename, i.e. removing one trailing occurrence.  This definition follows
the spec's words only, for comparison against the source's derivation. -/
def specStripWaveSuffix (f : String) : String :=
  let b := pyBasename f
  if "-wave.npy".toList.isSuffixOf b.toList then
    String.mk (b.toList.take (b.toList.length - "-wave.npy".toList.length))
  else b

/-! ### GAN trainer base class -/

/-- The configuration keys of the dict that GanBasedTrainer reads in the
embedded step logic. -/
structure TrainerConfig where
  rank : Int
  eval_interval_steps : Nat
  save_interval_steps : Nat
deriving DecidableEq

/-- The Checkpoint Record: the snapshot tracked by the tf.train.Checkpoint
object (steps, epochs, both models, both optimizers). -/
structure Ckpt (G D OG OD : Type) where
  steps : Nat
  epochs : Nat
  generator : G
  discriminator : D
  gen_optimizer : OG
  dis_optimizer : OD

/-- State of a GanBasedTrainer instance: the counters and flags the base
class owns, the model and optimizer objects, the in-memory checkpoint
object and the records the checkpoint manager has persisted (keyed by the
step number each save was tagged with). -/
structure GanBasedTrainer (G D OG OD : Type) where
  steps : Nat
  epochs : Nat
  config : TrainerConfig
  finish_train : Bool
  train_steps_per_epoch : Nat
  generator : G
  discriminator : D
  gen_optimizer : OG
  dis_optimizer : OD
  ckpt : Ckpt G D OG OD
  saved_checkpoints : List (Nat × Ckpt G D OG OD)

/-- The abstract hooks a concrete subclass supplies.  Per the base-class
contract the counters are mutated exclusively by the loop itself, so the
hooks act on the model and optimizer objects; the finish predicate reads
the current step count and can only raise the cooperative flag, which is
how every subclass uses it.  The log-interval hook is an external logging
side channel with no effect on the embedded state. -/
structure GanHooks (B G D OG OD : Type) where
  train_step : B → G × D × OG × OD → G × D × OG × OD
  eval_epoch : G × D × OG × OD → G × D × OG × OD
  check_train_finish : Nat → Bool

/-- Observable events of one _train_epoch run, in program order: hook
invocations and the interval checks with the actions they trigger. -/
inductive TrainerEvent
  | trainStep
  | checkTrainFinish
  | checkLogInterval
  | checkEvalInterval
  | evalEpoch (steps : Nat)
  | checkSaveInterval
  | saveCheckpoint (steps : Nat)
deriving DecidableEq

/-- Embedding of GanBasedTrainer.save_checkpoint: copy the current
counters into the checkpoint object and persist it tagged with the current
step count.  The tf.train.Checkpoint aliases the live model and optimizer
objects, so persisting records their current state as well. -/
def GanBasedTrainer.save_checkpoint (tr : GanBasedTrainer G D OG OD) :
    GanBasedTrainer G D OG OD :=
  let ckpt : Ckpt G D OG OD :=
    { steps := tr.steps, epochs := tr.epochs,
      generator := tr.generator, discriminator := tr.discriminator,
      gen_optimizer := tr.gen_optimizer, dis_optimizer := tr.dis_optimizer }
  { tr with ckpt := ckpt,
            saved_checkpoints := tr.saved_checkpoints ++ [(tr.steps, ckpt)] }

/-- Embedding of GanBasedTrainer.load_checkpoint: restore the given
persisted record into the checkpoint object, then copy its counters and
object references back onto the trainer. -/
def GanBasedTrainer.load_checkpoint (tr : GanBasedTrainer G D OG OD)
    (pretrained : Ckpt G D OG OD) : GanBasedTrainer G D OG OD :=
  { tr with ckpt := pretrained,
            steps := pretrained.steps,
            epochs := pretrained.epochs,
            generator := pretrained.generator,
            discriminator := pretrained.discriminator,
            gen_optimizer := pretrained.gen_optimizer,
            dis_optimizer := pretrained.dis_optimizer }

/-- Embedding of GanBasedTrainer._check_eval_interval: run _eval_epoch
when the step count is a multiple of eval_interval_steps. -/
def GanBasedTrainer.check_eval_interval (hooks : GanHooks B G D OG OD)
    (tr : GanBasedTrainer G D OG OD) : GanBasedTrainer G D OG OD × List TrainerEvent :=
  if tr.steps % tr.config.eval_interval_steps = 0 then
    let st := hooks.eval_epoch (tr.generator, tr.discriminator, tr.gen_optimizer, tr.dis_optimizer)
    ({ tr with generator := st.1, discriminator := st.2.1,
               gen_optimizer := st.2.2.1, dis_optimizer := st.2.2.2 },
     [.checkEvalInterval, .evalEpoch tr.steps])
  else (tr, [.checkEvalInterval])

/-- Embedding of GanBasedTrainer._check_save_interval: save a checkpoint
when the step count is a multiple of save_interval_steps. -/
def GanBasedTrainer.check_save_interval (tr : GanBasedTrainer G D OG OD) :
    GanBasedTrainer G D OG OD × List TrainerEvent :=
  if tr.steps % tr.config.save_interval_steps = 0 then
    (tr.save_checkpoint, [.checkSaveInterval, .saveCheckpoint tr.steps])
  else (tr, [.checkSaveInterval])

/-- One pass of the body of the inner loop of _train_epoch: run the
abstract train step, increment steps, consult _check_train_finish, and on
the coordinator rank run the log, eval and save interval checks in that
fixed order. -/
def GanBasedTrainer.train_loop_body (hooks : GanHooks B G D OG OD)
    (tr : GanBasedTrainer G D OG OD) (batch : B) :
    GanBasedTrainer G D OG OD × List TrainerEvent :=
  let st := hooks.train_step batch (tr.generator, tr.discriminator, tr.gen_optimizer, tr.dis_optimizer)
  let tr1 := { tr with generator := st.1, discriminator := st.2.1,
                       gen_optimizer := st.2.2.1, dis_optimizer := st.2.2.2 }
  let tr2 := { tr1 with steps := tr1.steps + 1 }
  let tr3 := { tr2 with finish_train := tr2.finish_train || hooks.check_train_finish tr2.steps }
  if tr3.config.rank = 0 then
    let r1 := check_eval_interval hooks tr3
    let r2 := check_save_interval r1.1
    (r2.1, [.trainStep, .checkTrainFinish, .checkLogInterval] ++ r1.2 ++ r2.2)
  else
    (tr3, [.trainStep, .checkTrainFinish])

/-- The inner loop of _train_epoch over the remaining batch stream; count
is the number of batches already consumed (the running value of Python's
1-based enumerate index).  After each body pass the finish flag may end
the loop early; exhausting the stream increments epochs and records the
realized per-epoch step count. -/
def GanBasedTrainer.train_epoch_go (hooks : GanHooks B G D OG OD) :
    GanBasedTrainer G D OG OD → Nat → List B → GanBasedTrainer G D OG OD × List TrainerEvent
  | tr, count, [] => ({ tr with epochs := tr.epochs + 1, train_steps_per_epoch := count }, [])
  | tr, count, batch :: rest =>
    let r := train_loop_body hooks tr batch
    if r.1.finish_train then (r.1, r.2)
    else
      let r2 := train_epoch_go hooks r.1 (count + 1) rest
      (r2.1, r.2 ++ r2.2)

/-- Embedding of GanBasedTrainer._train_epoch over one pass of the train
data loader's batch stream. -/
def GanBasedTrainer.train_epoch (hooks : GanHooks B G D OG OD)
    (tr : GanBasedTrainer G D OG OD) (batches : List B) :
    GanBasedTrainer G D OG OD × List TrainerEvent :=
  train_epoch_go hooks tr 0 batches

/-- Closed-form event trace of one loop body pass executed at step count s
(the value after the increment): the hooks run first, then on the
coordinator rank the three interval checks in the fixed order log, eval,
save, the latter two firing exactly on their step multiples. -/
def stepTrace (cfg : TrainerConfig) (s : Nat) : List TrainerEvent :=
  [.trainStep, .checkTrainFinish] ++
  (if cfg.rank = 0 then
    [.checkLogInterval, .checkEvalInterval] ++
    (if s % cfg.eval_interval_steps = 0 then [.evalEpoch s] else []) ++
    [.checkSaveInterval] ++
    (if s % cfg.save_interval_steps = 0 then [.saveCheckpoint s] else [])
  else [])

/-- The step counts at which a checkpoint save fired, read off a trace. -/
def saveEventSteps (evs : List TrainerEvent) : List Nat :=
  evs.filterMap (fun e => match e with | .saveCheckpoint s => some s | _ => none)

/-- The step counts at which an evaluation fired, read off a trace. -/
def evalEventSteps (evs : List TrainerEvent) : List Nat :=
  evs.filterMap (fun e => match e with | .evalEpoch s => some s | _ => none)

/-- Events belonging to the rank-gated interval-check block. -/
def isIntervalEvent : TrainerEvent → Bool
  | .trainStep | .checkTrainFinish => false
  | _ => true

/-- Recognizer for the train-step event. -/
def isTrainStepEv : TrainerEvent → Bool
  | .trainStep => true
  | _ => false

/-- Recognizer for the finish-check event. -/
def isCheckFinishEv : TrainerEvent → Bool
  | .checkTrainFinish => true
  | _ => false

/-! ### Trainer lemmas -/

theorem train_loop_body_events (hooks : GanHooks B G D OG OD)
    (tr : GanBasedTrainer G D OG OD) (b : B) :
    (GanBasedTrainer.train_loop_body hooks tr b).2 = stepTrace tr.config (tr.steps + 1) := by
  unfold GanBasedTrainer.train_loop_body GanBasedTrainer.check_eval_interval
    GanBasedTrainer.check_save_interval stepTrace
  by_cases hr : tr.config.rank = 0 <;>
    by_cases he : (tr.steps + 1) % tr.config.eval_interval_steps = 0 <;>
      by_cases hs : (tr.steps + 1) % tr.config.save_interval_steps = 0 <;>
        simp [hr, he, hs]

theorem train_loop_body_state (hooks : GanHooks B G D OG OD)
    (tr : GanBasedTrainer G D OG OD) (b : B) :
    (GanBasedTrainer.train_loop_body hooks tr b).1.steps = tr.steps + 1 ∧
    (GanBasedTrainer.train_loop_body hooks tr b).1.config = tr.config ∧
    (GanBasedTrainer.train_loop_body hooks tr b).1.epochs = tr.epochs ∧
    (GanBasedTrainer.train_loop_body hooks tr b).1.finish_train
      = (tr.finish_train || hooks.check_train_finish (tr.steps + 1)) := by
  unfold GanBasedTrainer.train_loop_body GanBasedTrainer.check_eval_interval
    GanBasedTrainer.check_save_interval GanBasedTrainer.save_checkpoint
  by_cases hr : tr.config.rank = 0 <;>
    by_cases he : (tr.steps + 1) % tr.config.eval_interval_steps = 0 <;>
      by_cases hs : (tr.steps + 1) % tr.config.save_interval_steps = 0 <;>
        simp [hr, he, hs]

theorem train_epoch_go_cons (hooks : GanHooks B G D OG OD)
    (tr : GanBasedTrainer G D OG OD) (count : Nat) (batch : B) (rest : List B) :
    GanBasedTrainer.train_epoch_go hooks tr count (batch :: rest) =
      (if (GanBasedTrainer.train_loop_body hooks tr batch).1.finish_train then
        GanBasedTrainer.train_loop_body hooks tr batch
      else
        ((GanBasedTrainer.train_epoch_go hooks (GanBasedTrainer.train_loop_body hooks tr batch).1
            (count + 1) rest).1,
         (GanBasedTrainer.train_loop_body hooks tr batch).2 ++
           (GanBasedTrainer.train_epoch_go hooks (GanBasedTrainer.train_loop_body hooks tr batch).1
             (count + 1) rest).2)) := rfl

theorem train_epoch_go_trace (hooks : GanHooks B G D OG OD) :
    ∀ (batches : List B) (tr : GanBasedTrainer G D OG OD) (count : Nat),
    ∃ k, k ≤ batches.length ∧
      (GanBasedTrainer.train_epoch_go hooks tr count batches).2
        = (List.range' (tr.steps + 1) k).flatMap (stepTrace tr.config) ∧
      (GanBasedTrainer.train_epoch_go hooks tr count batches).1.config = tr.config ∧
      (GanBasedTrainer.train_epoch_go hooks tr count batches).1.steps = tr.steps + k
  | [], tr, count => ⟨0, by simp [GanBasedTrainer.train_epoch_go]⟩
  | batch :: rest, tr, count => by
    have hbody := train_loop_body_state hooks tr batch
    have hevs := train_loop_body_events hooks tr batch
    rw [train_epoch_go_cons]
    by_cases hf : (GanBasedTrainer.train_loop_body hooks tr batch).1.finish_train
    · refine ⟨1, by simp, ?_, ?_, ?_⟩
      · simp [hf, hevs, List.range'_succ]
      · simp [hf, hbody.2.1]
      · simp [hf, hbody.1]
    · obtain ⟨k, hk, htr, hcfg, hsteps⟩ :=
        train_epoch_go_trace hooks rest (GanBasedTrainer.train_loop_body hooks tr batch).1 (count + 1)
      refine ⟨k + 1, by simp; omega, ?_, ?_, ?_⟩
      · simp only [hf, Bool.false_eq_true, if_false]
        rw [htr, hbody.1, hbody.2.1, hevs, List.range'_succ, List.flatMap_cons]
      · simp only [hf, Bool.false_eq_true, if_false]
        exact hcfg.trans hbody.2.1
      · simp only [hf, Bool.false_eq_true, if_false]
        have h2 : (GanBasedTrainer.train_epoch_go hooks
            (GanBasedTrainer.train_loop_body hooks tr batch).1 (count + 1) rest).1.steps
            = tr.steps + 1 + k := by rw [hsteps, hbody.1]
        exact h2.trans (by omega)

theorem saveEventSteps_append (l₁ l₂ : List TrainerEvent) :
    saveEventSteps (l₁ ++ l₂) = saveEventSteps l₁ ++ saveEventSteps l₂ := by
  simp [saveEventSteps]

theorem evalEventSteps_append (l₁ l₂ : List TrainerEvent) :
    evalEventSteps (l₁ ++ l₂) = evalEventSteps l₁ ++ evalEventSteps l₂ := by
  simp [evalEventSteps]

theorem saveEventSteps_stepTrace (cfg : TrainerConfig) (s : Nat) (h : cfg.rank = 0) :
    saveEventSteps (stepTrace cfg s)
      = if s % cfg.save_interval_steps = 0 then [s] else [] := by
  unfold stepTrace saveEventSteps
  by_cases he : s % cfg.eval_interval_steps = 0 <;>
    by_cases hs : s % cfg.save_interval_steps = 0 <;> simp [h, he, hs]

theorem evalEventSteps_stepTrace (cfg : TrainerConfig) (s : Nat) (h : cfg.rank = 0) :
    evalEventSteps (stepTrace cfg s)
      = if s % cfg.eval_interval_steps = 0 then [s] else [] := by
  unfold stepTrace evalEventSteps
  by_cases he : s % cfg.eval_interval_steps = 0 <;>
    by_cases hs : s % cfg.save_interval_steps = 0 <;> simp [h, he, hs]

theorem stepTrace_rank_ne (cfg : TrainerConfig) (s : Nat) (h : ¬cfg.rank = 0) :
    stepTrace cfg s = [.trainStep, .checkTrainFinish] := by
  simp [stepTrace, h]

theorem saveEventSteps_flatMap_range (cfg : TrainerConfig) (h : cfg.rank = 0) :
    ∀ (k s : Nat),
    saveEventSteps ((List.range' s k).flatMap (stepTrace cfg))
      = (List.range' s k).filter (fun x => x % cfg.save_interval_steps = 0)
  | 0, _ => rfl
  | k + 1, s => by
    rw [List.range'_succ, List.flatMap_cons, saveEventSteps_append,
        saveEventSteps_stepTrace cfg s h, saveEventSteps_flatMap_range cfg h k (s + 1),
        List.filter_cons]
    by_cases hs : s % cfg.save_interval_steps = 0 <;> simp [hs]

theorem evalEventSteps_flatMap_range (cfg : TrainerConfig) (h : cfg.rank = 0) :
    ∀ (k s : Nat),
    evalEventSteps ((List.range' s k).flatMap (stepTrace cfg))
      = (List.range' s k).filter (fun x => x % cfg.eval_interval_steps = 0)
  | 0, _ => rfl
  | k + 1, s => by
    rw [List.range'_succ, List.flatMap_cons, evalEventSteps_append,
        evalEventSteps_stepTrace cfg s h, evalEventSteps_flatMap_range cfg h k (s + 1),
        List.filter_cons]
    by_cases he : s % cfg.eval_interval_steps = 0 <;> simp [he]

theorem filter_interval_flatMap_range (cfg : TrainerConfig) (h : ¬cfg.rank = 0) :
    ∀ (k s : Nat),
    ((List.range' s k).flatMap (stepTrace cfg)).filter isIntervalEvent = []
  | 0, _ => rfl
  | k + 1, s => by
    rw [List.range'_succ, List.flatMap_cons, List.filter_append,
        filter_interval_flatMap_range cfg h k (s + 1), stepTrace_rank_ne cfg s h]
    rfl

theorem stepTrace_countP_trainStep (cfg : TrainerConfig) (s : Nat) :
    (stepTrace cfg s).countP isTrainStepEv = 1 := by
  unfold stepTrace
  by_cases hr : cfg.rank = 0 <;>
    by_cases he : s % cfg.eval_interval_steps = 0 <;>
      by_cases hs : s % cfg.save_interval_steps = 0 <;>
        (simp [hr, he, hs, List.countP_cons, List.countP_append, isTrainStepEv, List.countP]; rfl)

theorem stepTrace_countP_checkFinish (cfg : TrainerConfig) (s : Nat) :
    (stepTrace cfg s).countP isCheckFinishEv = 1 := by
  unfold stepTrace
  by_cases hr : cfg.rank = 0 <;>
    by_cases he : s % cfg.eval_interval_steps = 0 <;>
      by_cases hs : s % cfg.save_interval_steps = 0 <;>
        (simp [hr, he, hs, List.countP_cons, List.countP_append, isCheckFinishEv, List.countP]; rfl)

theorem countP_flatMap_range_const (f : Nat → List TrainerEvent) (p : TrainerEvent → Bool)
    (hf : ∀ x, (f x).countP p = 1) :
    ∀ (k s : Nat), ((List.range' s k).flatMap f).countP p = k
  | 0, _ => rfl
  | k + 1, s => by
    rw [List.range'_succ, List.flatMap_cons, List.countP_append, hf,
        countP_flatMap_range_const f p hf k (s + 1)]
    omega

theorem train_epoch_go_finish (hooks : GanHooks B G D OG OD) :
    ∀ (batches : List B) (tr : GanBasedTrainer G D OG OD) (count : Nat),
    tr.finish_train = false →
    (match (List.range' (tr.steps + 1) batches.length).find? hooks.check_train_finish with
     | none =>
       (GanBasedTrainer.train_epoch_go hooks tr count batches).1.finish_train = false ∧
       (GanBasedTrainer.train_epoch_go hooks tr count batches).1.epochs = tr.epochs + 1 ∧
       (GanBasedTrainer.train_epoch_go hooks tr count batches).2.countP isTrainStepEv
         = batches.length
     | some s =>
       (GanBasedTrainer.train_epoch_go hooks tr count batches).1.finish_train = true ∧
       (GanBasedTrainer.train_epoch_go hooks tr count batches).1.epochs = tr.epochs ∧
       (GanBasedTrainer.train_epoch_go hooks tr count batches).2.countP isTrainStepEv
         = s - tr.steps ∧
       tr.steps < s ∧ s ≤ tr.steps + batches.length)
  | [], tr, count, h => by
    simp only [List.length_nil, List.range', List.find?_nil]
    refine ⟨?_, ?_, ?_⟩ <;> simp [GanBasedTrainer.train_epoch_go, h]
  | batch :: rest, tr, count, h => by
    have hbody := train_loop_body_state hooks tr batch
    have hevs := train_loop_body_events hooks tr batch
    have hcount1 : (GanBasedTrainer.train_loop_body hooks tr batch).2.countP isTrainStepEv = 1 := by
      rw [hevs]; exact stepTrace_countP_trainStep tr.config (tr.steps + 1)
    rw [List.length_cons, List.range'_succ]
    by_cases hp : hooks.check_train_finish (tr.steps + 1)
    · rw [List.find?_cons_of_pos _ hp]
      have hfin : (GanBasedTrainer.train_loop_body hooks tr batch).1.finish_train = true := by
        simp [hbody.2.2.2, h, hp]
      rw [train_epoch_go_cons, if_pos hfin]
      exact ⟨hfin, hbody.2.2.1, by rw [hcount1]; omega, by omega, by omega⟩
    · rw [List.find?_cons_of_neg _ hp]
      have hfin : (GanBasedTrainer.train_loop_body hooks tr batch).1.finish_train = false := by
        rw [hbody.2.2.2, h, Bool.false_or]
        simpa using hp
      have hih := train_epoch_go_finish hooks rest
        (GanBasedTrainer.train_loop_body hooks tr batch).1 (count + 1) hfin
      rw [hbody.1] at hih
      rw [train_epoch_go_cons, if_neg (by rw [hfin]; exact Bool.false_ne_true)]
      cases hfind : (List.range' (tr.steps + 1 + 1) rest.length).find? hooks.check_train_finish with
      | none =>
        rw [hfind] at hih
        refine ⟨hih.1, ?_, ?_⟩
        · rw [hih.2.1, hbody.2.2.1]
        · rw [List.countP_append, hcount1, hih.2.2]; omega
      | some s =>
        rw [hfind] at hih
        refine ⟨hih.1, ?_, ?_, ?_, ?_⟩
        · rw [hih.2.1, hbody.2.2.1]
        · rw [List.countP_append, hcount1, hih.2.2.1]; omega
        · omega
        · have := hih.2.2.2.2; omega

/-! ### Claim theorems about the trainer -/

/-- C2: in GanBasedTrainer._train_epoch, every processed step contributes
the closed-form trace stepTrace, in which the interval checks run in the
fixed order log, eval, save on the coordinator rank; an evaluation fires
exactly at the steps that are multiples of eval_interval_steps and a
checkpoint save exactly at the multiples of save_interval_steps; and on a
non-coordinator rank no interval check fires at any step.  The intervals
are assumed positive, as the step-modulo checks require in Python. -/
theorem c2_interval_checks (hooks : GanHooks B G D OG OD)
    (tr : GanBasedTrainer G D OG OD) (batches : List B)
    (_heval : 0 < tr.config.eval_interval_steps)
    (_hsave : 0 < tr.config.save_interval_steps) :
    ∃ k, k ≤ batches.length ∧
      (GanBasedTrainer.train_epoch hooks tr batches).2
        = (List.range' (tr.steps + 1) k).flatMap (stepTrace tr.config) ∧
      (tr.config.rank = 0 →
        saveEventSteps (GanBasedTrainer.train_epoch hooks tr batches).2
          = (List.range' (tr.steps + 1) k).filter
              (fun s => s % tr.config.save_interval_steps = 0) ∧
        evalEventSteps (GanBasedTrainer.train_epoch hooks tr batches).2
          = (List.range' (tr.steps + 1) k).filter
              (fun s => s % tr.config.eval_interval_steps = 0)) ∧
      (tr.config.rank ≠ 0 →
        (GanBasedTrainer.train_epoch hooks tr batches).2.filter isIntervalEvent = []) := by
  obtain ⟨k, hk, htrace, _, _⟩ := train_epoch_go_trace hooks batches tr 0
  refine ⟨k, hk, htrace, fun hr => ?_, fun hr => ?_⟩
  · unfold GanBasedTrainer.train_epoch
    rw [htrace, saveEventSteps_flatMap_range tr.config hr,
        evalEventSteps_flatMap_range tr.config hr]
    exact ⟨rfl, rfl⟩
  · unfold GanBasedTrainer.train_epoch
    rw [htrace, filter_interval_flatMap_range tr.config hr]

/-- Witness: c2_interval_checks applied to a concrete trainer at rank 0
with intervals 2 and 3 over six batches. -/
def wHooksC2 : GanHooks Nat Unit Unit Unit Unit :=
  { train_step := fun _ st => st, eval_epoch := fun st => st,
    check_train_finish := fun _ => false }

def wTrainerC2 : GanBasedTrainer Unit Unit Unit Unit :=
  { steps := 0, epochs := 0,
    config := { rank := 0, eval_interval_steps := 2, save_interval_steps := 3 },
    finish_train := false, train_steps_per_epoch := 0,
    generator := (), discriminator := (), gen_optimizer := (), dis_optimizer := (),
    ckpt := { steps := 0, epochs := 0, generator := (), discriminator := (),
              gen_optimizer := (), dis_optimizer := () },
    saved_checkpoints := [] }

theorem c2_interval_checks_witness :
    0 < wTrainerC2.config.eval_interval_steps ∧
    0 < wTrainerC2.config.save_interval_steps ∧
    (∃ k, k ≤ ([10, 20, 30, 40, 50, 60] : List Nat).length ∧
      (GanBasedTrainer.train_epoch wHooksC2 wTrainerC2 [10, 20, 30, 40, 50, 60]).2
        = (List.range' (wTrainerC2.steps + 1) k).flatMap (stepTrace wTrainerC2.config) ∧
      (wTrainerC2.config.rank = 0 →
        saveEventSteps (GanBasedTrainer.train_epoch wHooksC2 wTrainerC2 [10, 20, 30, 40, 50, 60]).2
          = (List.range' (wTrainerC2.steps + 1) k).filter
              (fun s => s % wTrainerC2.config.save_interval_steps = 0) ∧
        evalEventSteps (GanBasedTrainer.train_epoch wHooksC2 wTrainerC2 [10, 20, 30, 40, 50, 60]).2
          = (List.range' (wTrainerC2.steps + 1) k).filter
              (fun s => s % wTrainerC2.config.eval_interval_steps = 0)) ∧
      (wTrainerC2.config.rank ≠ 0 →
        (GanBasedTrainer.train_epoch wHooksC2 wTrainerC2 [10, 20, 30, 40, 50, 60]).2.filter
          isIntervalEvent = [])) :=
  ⟨by decide, by decide,
   c2_interval_checks wHooksC2 wTrainerC2 [10, 20, 30, 40, 50, 60] (by decide) (by decide)⟩

/-- C4: a checkpoint round trip restores the counters.  If save_checkpoint
runs with counters steps = S and epochs = E, then load_checkpoint on the
checkpoint record it produced (on any trainer instance) sets steps back to
S and epochs back to E. -/
theorem c4_checkpoint_roundtrip (tr tr₂ : GanBasedTrainer G D OG OD) :
    (tr₂.load_checkpoint tr.save_checkpoint.ckpt).steps = tr.steps ∧
    (tr₂.load_checkpoint tr.save_checkpoint.ckpt).epochs = tr.epochs := ⟨rfl, rfl⟩

/-- C5: the finish check is consulted after every step (as many finish
checks as train steps appear in the trace); when the abstract finish
predicate first reports true at step s, the inner loop has processed
exactly s - steps0 batches and returned immediately with the epochs
counter unchanged; when it never reports true, the full pass completes and
epochs increments by one. -/
theorem c5_early_finish (hooks : GanHooks B G D OG OD)
    (tr : GanBasedTrainer G D OG OD) (batches : List B)
    (h : tr.finish_train = false) :
    (GanBasedTrainer.train_epoch hooks tr batches).2.countP isCheckFinishEv
      = (GanBasedTrainer.train_epoch hooks tr batches).2.countP isTrainStepEv ∧
    (match (List.range' (tr.steps + 1) batches.length).find? hooks.check_train_finish with
     | none =>
       (GanBasedTrainer.train_epoch hooks tr batches).1.finish_train = false ∧
       (GanBasedTrainer.train_epoch hooks tr batches).1.epochs = tr.epochs + 1 ∧
       (GanBasedTrainer.train_epoch hooks tr batches).2.countP isTrainStepEv = batches.length
     | some s =>
       (GanBasedTrainer.train_epoch hooks tr batches).1.finish_train = true ∧
       (GanBasedTrainer.train_epoch hooks tr batches).1.epochs = tr.epochs ∧
       (GanBasedTrainer.train_epoch hooks tr batches).2.countP isTrainStepEv = s - tr.steps ∧
       tr.steps < s ∧ s ≤ tr.steps + batches.length) := by
  constructor
  · obtain ⟨k, _, htrace, _, _⟩ := train_epoch_go_trace hooks batches tr 0
    unfold GanBasedTrainer.train_epoch
    rw [htrace,
        countP_flatMap_range_const (stepTrace tr.config) isCheckFinishEv
          (stepTrace_countP_checkFinish tr.config) k (tr.steps + 1),
        countP_flatMap_range_const (stepTrace tr.config) isTrainStepEv
          (stepTrace_countP_trainStep tr.config) k (tr.steps + 1)]
  · exact train_epoch_go_finish hooks batches tr 0 h

/-- Witness: c5_early_finish on a concrete trainer whose finish predicate
first fires at step 3 of a five-batch epoch. -/
def wHooksC5 : GanHooks Nat Unit Unit Unit Unit :=
  { train_step := fun _ st => st, eval_epoch := fun st => st,
    check_train_finish := fun s => decide (3 ≤ s) }

def wTrainerC5 : GanBasedTrainer Unit Unit Unit Unit :=
  { steps := 0, epochs := 7,
    config := { rank := 1, eval_interval_steps := 2, save_interval_steps := 3 },
    finish_train := false, train_steps_per_epoch := 0,
    generator := (), discriminator := (), gen_optimizer := (), dis_optimizer := (),
    ckpt := { steps := 0, epochs := 0, generator := (), discriminator := (),
              gen_optimizer := (), dis_optimizer := () },
    saved_checkpoints := [] }

theorem c5_early_finish_witness :
    wTrainerC5.finish_train = false ∧
    ((GanBasedTrainer.train_epoch wHooksC5 wTrainerC5 [10, 20, 30, 40, 50]).2.countP
        isCheckFinishEv
      = (GanBasedTrainer.train_epoch wHooksC5 wTrainerC5 [10, 20, 30, 40, 50]).2.countP
          isTrainStepEv ∧
    (match (List.range' (wTrainerC5.steps + 1) ([10, 20, 30, 40, 50] : List Nat).length).find?
        wHooksC5.check_train_finish with
     | none =>
       (GanBasedTrainer.train_epoch wHooksC5 wTrainerC5 [10, 20, 30, 40, 50]).1.finish_train
         = false ∧
       (GanBasedTrainer.train_epoch wHooksC5 wTrainerC5 [10, 20, 30, 40, 50]).1.epochs
         = wTrainerC5.epochs + 1 ∧
       (GanBasedTrainer.train_epoch wHooksC5 wTrainerC5 [10, 20, 30, 40, 50]).2.countP
         isTrainStepEv = ([10, 20, 30, 40, 50] : List Nat).length
     | some s =>
       (GanBasedTrainer.train_epoch wHooksC5 wTrainerC5 [10, 20, 30, 40, 50]).1.finish_train
         = true ∧
       (GanBasedTrainer.train_epoch wHooksC5 wTrainerC5 [10, 20, 30, 40, 50]).1.epochs
         = wTrainerC5.epochs ∧
       (GanBasedTrainer.train_epoch wHooksC5 wTrainerC5 [10, 20, 30, 40, 50]).2.countP
         isTrainStepEv = s - wTrainerC5.steps ∧
       wTrainerC5.steps < s ∧ s ≤ wTrainerC5.steps + ([10, 20, 30, 40, 50] : List Nat).length)) :=
  ⟨rfl, c5_early_finish wHooksC5 wTrainerC5 [10, 20, 30, 40, 50] rfl⟩

/-- C10: save_checkpoint is frame-preserving on the trainer itself.  It
only rewrites the checkpoint snapshot (copying the current counters and
the live object references into it) and appends the persisted record; the
trainer fields steps, epochs, finish_train, generator, discriminator,
gen_optimizer, dis_optimizer (and config and train_steps_per_epoch) are
all unchanged. -/
theorem c10_save_checkpoint_frame (tr : GanBasedTrainer G D OG OD) :
    tr.save_checkpoint.steps = tr.steps ∧
    tr.save_checkpoint.epochs = tr.epochs ∧
    tr.save_checkpoint.finish_train = tr.finish_train ∧
    tr.save_checkpoint.generator = tr.generator ∧
    tr.save_checkpoint.discriminator = tr.discriminator ∧
    tr.save_checkpoint.gen_optimizer = tr.gen_optimizer ∧
    tr.save_checkpoint.dis_optimizer = tr.dis_optimizer ∧
    tr.save_checkpoint.config = tr.config ∧
    tr.save_checkpoint.train_steps_per_epoch = tr.train_steps_per_epoch ∧
    tr.save_checkpoint.ckpt
      = { steps := tr.steps, epochs := tr.epochs, generator := tr.generator,
          discriminator := tr.discriminator, gen_optimizer := tr.gen_optimizer,
          dis_optimizer := tr.dis_optimizer } ∧
    tr.save_checkpoint.saved_checkpoints
      = tr.saved_checkpoints ++ [(tr.steps, tr.save_checkpoint.ckpt)] :=
  ⟨rfl, rfl, rfl, rfl, rfl, rfl, rfl, rfl, rfl, rfl, rfl⟩

/-! ### Lemmas about pySelect and the threshold filters -/

theorem pySelect_nil (l : List α) : pySelect l [] = some [] := rfl

theorem pySelect_length (l : List α) :
    ∀ (idxs : List Nat) (r : List α), pySelect l idxs = some r → r.length = idxs.length
  | [], r, h => by simp [pySelect] at h; simp [← h]
  | i :: idxs, r, h => by
    unfold pySelect at h
    cases hx : l[i]? with
    | none => rw [hx] at h; exact absurd h (by simp)
    | some x =>
      cases hr : pySelect l idxs with
      | none => rw [hx, hr] at h; exact absurd h (by simp)
      | some rr =>
        rw [hx, hr] at h
        simp only [Option.some.injEq] at h
        rw [← h, List.length_cons, pySelect_length l idxs rr hr, List.length_cons]

theorem pySelect_cons_map_succ (x : α) (l : List α) :
    ∀ (idxs : List Nat), pySelect (x :: l) (idxs.map Nat.succ) = pySelect l idxs
  | [] => rfl
  | i :: idxs => by
    simp only [List.map_cons, pySelect, List.getElem?_cons_succ,
               pySelect_cons_map_succ x l idxs]

theorem map_succ_map_pred (idxs : List Nat) (h : ∀ i ∈ idxs, 1 ≤ i) :
    (idxs.map (fun i => i - 1)).map Nat.succ = idxs := by
  induction idxs with
  | nil => rfl
  | cons i rest ih =>
    have hi : 1 ≤ i := h i (List.mem_cons_self i rest)
    simp only [List.map_cons, List.cons.injEq]
    exact ⟨by omega, ih (fun j hj => h j (List.mem_cons_of_mem i hj))⟩

theorem pySelect_sublist :
    ∀ (l : List α) (idxs : List Nat) (r : List α),
    idxs.Pairwise (· < ·) → pySelect l idxs = some r → r.Sublist l
  | l, [], r, _, h => by
    simp only [pySelect, Option.some.injEq] at h
    rw [← h]
    exact List.nil_sublist l
  | [], i :: idxs, r, _, h => by simp [pySelect] at h
  | x :: t, 0 :: idxs, r, hp, h => by
    have hpos : ∀ j ∈ idxs, 1 ≤ j := fun j hj => (List.pairwise_cons.mp hp).1 j hj
    have hshift : pySelect (x :: t) idxs = pySelect t (idxs.map (fun i => i - 1)) := by
      conv_lhs => rw [← map_succ_map_pred idxs hpos]
      rw [pySelect_cons_map_succ]
    unfold pySelect at h
    rw [List.getElem?_cons_zero, hshift] at h
    cases hr : pySelect t (idxs.map (fun i => i - 1)) with
    | none => rw [hr] at h; exact absurd h (by simp)
    | some rr =>
      rw [hr] at h
      simp only [Option.some.injEq] at h
      have hpm : (idxs.map (fun i => i - 1)).Pairwise (· < ·) := by
        rw [List.pairwise_map]
        refine ((List.pairwise_cons.mp hp).2).imp_of_mem ?_
        intro a b ha hb hab
        have h1 : 1 ≤ a := hpos a ha
        omega
      rw [← h]
      exact (pySelect_sublist t (idxs.map (fun i => i - 1)) rr hpm hr).cons₂ x
  | x :: t, (j + 1) :: idxs, r, hp, h => by
    have hpos : ∀ i ∈ (j + 1) :: idxs, 1 ≤ i := by
      intro i hi
      rcases List.mem_cons.mp hi with h1 | h2
      · omega
      · have := (List.pairwise_cons.mp hp).1 i h2; omega
    have hshift : pySelect (x :: t) ((j + 1) :: idxs)
        = pySelect t (((j + 1) :: idxs).map (fun i => i - 1)) := by
      conv_lhs => rw [← map_succ_map_pred ((j + 1) :: idxs) hpos]
      rw [pySelect_cons_map_succ]
    rw [hshift] at h
    have hpm : (((j + 1) :: idxs).map (fun i => i - 1)).Pairwise (· < ·) := by
      rw [List.pairwise_map]
      refine hp.imp_of_mem ?_
      intro a b ha hb hab
      have h1 : 1 ≤ a := hpos a ha
      omega
    exact (pySelect_sublist t (((j + 1) :: idxs).map (fun i => i - 1)) r hpm h).cons x

theorem pySelect_cons_eq (l : List α) (i : Nat) (idxs : List Nat) :
    pySelect l (i :: idxs)
      = match l[i]?, pySelect l idxs with
        | some x, some r => some (x :: r)
        | _, _ => none := rfl

theorem pySelect_range_filter (lenf : String → Int) (t : Int) :
    ∀ (a m : List String), m.length = a.length →
    pySelect a ((List.range a.length).filter
        (fun idx => decide (t < (a.map lenf).getD idx 0)))
        = some (a.filter (fun f => decide (t < lenf f))) ∧
    pySelect m ((List.range a.length).filter
        (fun idx => decide (t < (a.map lenf).getD idx 0)))
        = some (((a.zip m).filter (fun pr => decide (t < lenf pr.1))).map Prod.snd)
  | [], m, hm => by
    have : m = [] := List.length_eq_zero.mp hm
    subst this
    exact ⟨rfl, rfl⟩
  | x :: xs, m, hm => by
    rcases m with _ | ⟨y, ys⟩
    · exact absurd hm (by simp)
    · have hm' : ys.length = xs.length := by simpa using hm
      obtain ⟨ih1, ih2⟩ := pySelect_range_filter lenf t xs ys hm'
      have hidxs : (List.range (x :: xs).length).filter
          (fun idx => decide (t < ((x :: xs).map lenf).getD idx 0))
          = (if decide (t < lenf x) then [0] else [])
            ++ ((List.range xs.length).filter
                 (fun idx => decide (t < (xs.map lenf).getD idx 0))).map Nat.succ := by
        rw [List.length_cons, List.range_succ_eq_map, List.filter_cons, List.filter_map]
        have hcong : (List.range xs.length).filter
            ((fun idx => decide (t < ((x :: xs).map lenf).getD idx 0)) ∘ Nat.succ)
            = (List.range xs.length).filter
                (fun idx => decide (t < (xs.map lenf).getD idx 0)) :=
          List.filter_congr (fun i _ => rfl)
        rw [hcong]
        simp only [List.map_cons, List.getD_cons_zero]
        by_cases hx : t < lenf x <;> simp [hx]
      constructor
      · rw [hidxs]
        by_cases hx : t < lenf x
        · rw [if_pos (decide_eq_true hx), List.singleton_append, pySelect_cons_eq,
              List.getElem?_cons_zero, pySelect_cons_map_succ, ih1,
              List.filter_cons_of_pos (by simpa using hx)]
        · rw [if_neg (by simp [hx]), List.nil_append, pySelect_cons_map_succ, ih1,
              List.filter_cons_of_neg (by simpa using hx)]
      · rw [hidxs]
        by_cases hx : t < lenf x
        · rw [if_pos (decide_eq_true hx), List.singleton_append, pySelect_cons_eq,
              List.getElem?_cons_zero, pySelect_cons_map_succ, ih2, List.zip_cons_cons,
              List.filter_cons_of_pos (by simpa using hx), List.map_cons]
        · rw [if_neg (by simp [hx]), List.nil_append, pySelect_cons_map_succ, ih2,
              List.zip_cons_cons, List.filter_cons_of_neg (by simpa using hx)]

theorem audioThresholdFilter_eq (load : String → List A) (t : Int)
    (a m : List String) (h : m.length = a.length) :
    audioThresholdFilter load t a m
      = some (a.filter (fun f => t < ((load f).length : Int)),
              ((a.zip m).filter (fun pr => t < ((load pr.1).length : Int))).map Prod.snd) := by
  obtain ⟨h1, h2⟩ := pySelect_range_filter (fun f => ((load f).length : Int)) t a m h
  simp only [audioThresholdFilter]
  rw [h1, h2]

theorem melThresholdFilter_eq (load : String → List M) (t : Int)
    (a m : List String) (h : a.length = m.length) :
    melThresholdFilter load t a m
      = some ((((m.zip a).filter (fun pr => t < ((load pr.1).length : Int))).map Prod.snd),
              m.filter (fun f => t < ((load f).length : Int))) := by
  obtain ⟨h1, h2⟩ := pySelect_range_filter (fun f => ((load f).length : Int)) t m a h
  simp only [melThresholdFilter]
  rw [h1, h2]

theorem pySelect_pair_lengths (x y : List String) (idxs : List Nat) (a1 m1 : List String)
    (hmatch : (match pySelect x idxs, pySelect y idxs with
               | some a, some m => some (a, m)
               | _, _ => none) = some (a1, m1)) :
    a1.length = m1.length := by
  cases h1 : pySelect x idxs with
  | none => rw [h1] at hmatch; exact absurd hmatch (by simp)
  | some ra =>
    cases h2 : pySelect y idxs with
    | none => rw [h1, h2] at hmatch; exact absurd hmatch (by simp)
    | some rm =>
      rw [h1, h2] at hmatch
      simp only [Option.some.injEq, Prod.mk.injEq] at hmatch
      rw [← hmatch.1, ← hmatch.2, pySelect_length x idxs ra h1, pySelect_length y idxs rm h2]

theorem audioThresholdFilter_lengths (la : String → List A) (t : Int)
    (a m a1 m1 : List String) (h : audioThresholdFilter la t a m = some (a1, m1)) :
    a1.length = m1.length := by
  simp only [audioThresholdFilter] at h
  exact pySelect_pair_lengths a m _ a1 m1 h

theorem melThresholdFilter_lengths (lm : String → List M) (t : Int)
    (a m a1 m1 : List String) (h : melThresholdFilter lm t a m = some (a1, m1)) :
    a1.length = m1.length := by
  simp only [melThresholdFilter] at h
  exact pySelect_pair_lengths a m _ a1 m1 h

theorem insertSorted_length (x : String) :
    ∀ l, (insertSorted x l).length = l.length + 1
  | [] => rfl
  | y :: ys => by
    unfold insertSorted
    by_cases hc : strLe x y <;> simp [hc, insertSorted_length x ys]

theorem sortStrings_length : ∀ l, (sortStrings l).length = l.length
  | [] => rfl
  | x :: xs => by simp [sortStrings, insertSorted_length, sortStrings_length xs]

/-- Recognizer of the construction-time integrity failure (the Python
assert statements; the spec's DataIntegrityError). -/
def isDataIntegrityFailure : Except DatasetError α → Bool
  | .error (.dataIntegrityError _) => true
  | _ => false

/-! ### Claim theorems about the dataset adapters, part 1 -/

/-- C1: for each configured threshold stage of AudioMelDataset
construction (over parallel lists of equal length), filtering retains
exactly the entries whose leading-dimension length strictly exceeds the
threshold, the same retained index set is applied to both lists (the
surviving pairs are exactly the zip pairs passing the length test, so
pairing by index is preserved), and the two filtered lists have equal
length again. -/
theorem c1_threshold_filtering (la : String → List A) (lm : String → List M)
    (t u : Int) (a m : List String) (h : m.length = a.length) :
    audioThresholdFilter la t a m
      = some (a.filter (fun f => t < ((la f).length : Int)),
              ((a.zip m).filter (fun pr => t < ((la pr.1).length : Int))).map Prod.snd) ∧
    (∀ a1 m1, audioThresholdFilter la t a m = some (a1, m1) → a1.length = m1.length) ∧
    melThresholdFilter lm u a m
      = some ((((m.zip a).filter (fun pr => u < ((lm pr.1).length : Int))).map Prod.snd),
              m.filter (fun f => u < ((lm f).length : Int))) ∧
    (∀ a1 m1, melThresholdFilter lm u a m = some (a1, m1) → a1.length = m1.length) :=
  ⟨audioThresholdFilter_eq la t a m h,
   fun a1 m1 hh => audioThresholdFilter_lengths la t a m a1 m1 hh,
   melThresholdFilter_eq lm u a m h.symm,
   fun a1 m1 hh => melThresholdFilter_lengths lm u a m a1 m1 hh⟩

/-- Witness: c1_threshold_filtering on two concrete two-element lists with
threshold 1, where only the first audio entry (length 2) survives. -/
theorem c1_threshold_filtering_witness :
    ((["c", "d"] : List String).length = (["a", "b"] : List String).length) ∧
    (audioThresholdFilter (fun f => if f = "a" then [0, 0] else ([0] : List Int)) 1
        ["a", "b"] ["c", "d"]
      = some ((["a", "b"] : List String).filter
                (fun f => 1 < (((if f = "a" then [0, 0] else ([0] : List Int)) : List Int).length : Int)),
              (((["a", "b"] : List String).zip ["c", "d"]).filter
                (fun pr => 1 < (((if pr.1 = "a" then [0, 0] else ([0] : List Int)) : List Int).length : Int))).map
                Prod.snd) ∧
    (∀ a1 m1, audioThresholdFilter (fun f => if f = "a" then [0, 0] else ([0] : List Int)) 1
        ["a", "b"] ["c", "d"] = some (a1, m1) → a1.length = m1.length) ∧
    melThresholdFilter (fun f => if f = "c" then [0, 0] else ([0] : List Int)) 1
        ["a", "b"] ["c", "d"]
      = some ((((["c", "d"] : List String).zip ["a", "b"]).filter
                (fun pr => 1 < (((if pr.1 = "c" then [0, 0] else ([0] : List Int)) : List Int).length : Int))).map
                Prod.snd,
              (["c", "d"] : List String).filter
                (fun f => 1 < (((if f = "c" then [0, 0] else ([0] : List Int)) : List Int).length : Int))) ∧
    (∀ a1 m1, melThresholdFilter (fun f => if f = "c" then [0, 0] else ([0] : List Int)) 1
        ["a", "b"] ["c", "d"] = some (a1, m1) → a1.length = m1.length)) :=
  ⟨by decide,
   c1_threshold_filtering (fun f => if f = "a" then [0, 0] else ([0] : List Int))
     (fun f => if f = "c" then [0, 0] else ([0] : List Int)) 1 1 ["a", "b"] ["c", "d"] (by decide)⟩

/-- C3: a paired adapter over a directory where neither query matches any
file fails with the data-integrity error (first assert); a paired adapter
whose audio and mel counts differ when no filtering is configured fails
with the data-integrity error (second assert); and the audio-only adapter
over a directory with no match fails the same way.  In every case an
Except error is returned, so no partial dataset object exists. -/
theorem c3_construction_failures :
    (∀ (A M : Type) (ff : String → String → List String) (root aq mq : String)
       (la : String → List A) (lm : String → List M) (athr mthr : Option Int) (ru : Bool),
       ff root aq = [] → ff root mq = [] →
       isDataIntegrityFailure (AudioMelDataset.init ff root aq mq la lm athr mthr ru) = true) ∧
    (∀ (A M : Type) (ff : String → String → List String) (root aq mq : String)
       (la : String → List A) (lm : String → List M) (ru : Bool),
       ff root aq ≠ [] → (ff root aq).length ≠ (ff root mq).length →
       isDataIntegrityFailure (AudioMelDataset.init ff root aq mq la lm none none ru) = true) ∧
    (∀ (A : Type) (ff : String → String → List String) (root aq : String)
       (la : String → List A) (athr : Option Int) (ru : Bool),
       ff root aq = [] →
       isDataIntegrityFailure (AudioDataset.init ff root aq la athr ru) = true) := by
  refine ⟨?_, ?_, ?_⟩
  · intro A M ff root aq mq la lm athr mthr ru h1 h2
    cases athr <;> cases mthr <;>
      simp [AudioMelDataset.init, audioThresholdFilter, melThresholdFilter, pySelect,
            sortStrings, isDataIntegrityFailure, h1, h2]
  · intro A M ff root aq mq la lm ru h1 h2
    have hl1 : ¬(sortStrings (ff root aq)).length = 0 := by
      rw [sortStrings_length]
      exact fun hh => h1 (List.length_eq_zero.mp hh)
    have hl2 : (sortStrings (ff root aq)).length ≠ (sortStrings (ff root mq)).length := by
      rw [sortStrings_length, sortStrings_length]
      exact h2
    simp only [AudioMelDataset.init]
    rw [if_neg hl1, if_pos hl2]
    rfl
  · intro A ff root aq la athr ru h1
    cases athr <;>
      simp [AudioDataset.init, audioOnlyThresholdFilter, pySelect, sortStrings,
            isDataIntegrityFailure, h1]

/-- Witness: c3_construction_failures at concrete empty and mismatched
directories. -/
theorem c3_construction_failures_witness :
    ((fun (_ _ : String) => ([] : List String)) "r" "*.h5" = [] ∧
     isDataIntegrityFailure (AudioMelDataset.init (fun _ _ => []) "r" "*.h5" "*.h5"
       (fun _ => ([] : List Int)) (fun _ => ([] : List Int)) none none false) = true) ∧
    ((fun (_root q : String) => if q = "a.h5" then ["x/a.h5"] else ([] : List String)) "r" "a.h5"
        ≠ [] ∧
     isDataIntegrityFailure (AudioMelDataset.init
       (fun _root q => if q = "a.h5" then ["x/a.h5"] else []) "r" "a.h5" "b.h5"
       (fun _ => ([] : List Int)) (fun _ => ([] : List Int)) none none false) = true) ∧
    isDataIntegrityFailure (AudioDataset.init (fun (_ _ : String) => ([] : List String)) "r" "*.h5"
       (fun _ => ([] : List Int)) none false) = true := by
  refine ⟨⟨rfl, ?_⟩, ⟨by decide, ?_⟩, ?_⟩
  · exact c3_construction_failures.1 Int Int (fun _ _ => []) "r" "*.h5" "*.h5"
      (fun _ => ([] : List Int)) (fun _ => ([] : List Int)) none none false rfl rfl
  · exact c3_construction_failures.2.1 Int Int
      (fun _root q => if q = "a.h5" then ["x/a.h5"] else []) "r" "a.h5" "b.h5"
      (fun _ => ([] : List Int)) (fun _ => ([] : List Int)) false (by decide) (by decide)
  · exact c3_construction_failures.2.2 Int (fun _ _ => []) "r" "*.h5"
      (fun _ => ([] : List Int)) none false rfl

/-! ### Sortedness of the embedded Python sorted() -/

theorem charListLe_total : ∀ (a b : List Char), charListLe a b = true ∨ charListLe b a = true
  | [], _ => Or.inl rfl
  | _ :: _, [] => Or.inr rfl
  | a :: as, b :: bs => by
    unfold charListLe
    by_cases h1 : a.toNat < b.toNat
    · left; simp [h1]
    · by_cases h2 : b.toNat < a.toNat
      · right; simp [h1, h2]
      · have := charListLe_total as bs
        simpa [h1, h2] using this

theorem charListLe_trans :
    ∀ (a b c : List Char), charListLe a b = true → charListLe b c = true → charListLe a c = true
  | [], _, _, _, _ => rfl
  | _ :: _, [], _, h, _ => by simp [charListLe] at h
  | _ :: _, _ :: _, [], _, h => by simp [charListLe] at h
  | a :: as, b :: bs, c :: cs, h1, h2 => by
    unfold charListLe at h1 h2 ⊢
    rcases Nat.lt_trichotomy a.toNat b.toNat with hab | hab | hab
    · rcases Nat.lt_trichotomy b.toNat c.toNat with hbc | hbc | hbc
      · simp [show a.toNat < c.toNat from by omega]
      · simp [show a.toNat < c.toNat from by omega]
      · simp [show ¬b.toNat < c.toNat from by omega, show c.toNat < b.toNat from hbc] at h2
    · rcases Nat.lt_trichotomy b.toNat c.toNat with hbc | hbc | hbc
      · simp [show a.toNat < c.toNat from by omega]
      · have h1' : charListLe as bs = true := by
          simpa [show ¬a.toNat < b.toNat from by omega,
                 show ¬b.toNat < a.toNat from by omega] using h1
        have h2' : charListLe bs cs = true := by
          simpa [show ¬b.toNat < c.toNat from by omega,
                 show ¬c.toNat < b.toNat from by omega] using h2
        simpa [show ¬a.toNat < c.toNat from by omega,
               show ¬c.toNat < a.toNat from by omega]
          using charListLe_trans as bs cs h1' h2'
      · simp [show ¬b.toNat < c.toNat from by omega, show c.toNat < b.toNat from hbc] at h2
    · simp [show ¬a.toNat < b.toNat from by omega, show b.toNat < a.toNat from hab] at h1

theorem strLe_total (a b : String) : strLe a b = true ∨ strLe b a = true :=
  charListLe_total a.toList b.toList

theorem strLe_trans (a b c : String) (h1 : strLe a b = true) (h2 : strLe b c = true) :
    strLe a c = true :=
  charListLe_trans a.toList b.toList c.toList h1 h2

theorem mem_insertSorted (x z : String) :
    ∀ (l : List String), z ∈ insertSorted x l ↔ z = x ∨ z ∈ l
  | [] => by simp [insertSorted]
  | y :: ys => by
    unfold insertSorted
    by_cases hc : strLe x y
    · simp [hc]
    · rw [if_neg hc]
      simp only [List.mem_cons, mem_insertSorted x z ys]
      tauto

theorem pairwise_insertSorted (x : String) :
    ∀ (l : List String), l.Pairwise (fun p q => strLe p q = true) →
    (insertSorted x l).Pairwise (fun p q => strLe p q = true)
  | [], _ => by simp [insertSorted]
  | y :: ys, hp => by
    obtain ⟨hy, hys⟩ := List.pairwise_cons.mp hp
    unfold insertSorted
    by_cases hc : strLe x y
    · rw [if_pos hc]
      refine List.pairwise_cons.mpr ⟨?_, hp⟩
      intro z hz
      rcases List.mem_cons.mp hz with h1 | h2
      · rw [h1]; exact hc
      · exact strLe_trans x y z hc (hy z h2)
    · rw [if_neg hc]
      have hyx : strLe y x = true := by
        rcases strLe_total x y with h | h
        · exact absurd h hc
        · exact h
      refine List.pairwise_cons.mpr ⟨?_, pairwise_insertSorted x ys hys⟩
      intro z hz
      rcases (mem_insertSorted x z ys).mp hz with h1 | h2
      · rw [h1]; exact hyx
      · exact hy z h2

theorem sortStrings_pairwise :
    ∀ (l : List String), (sortStrings l).Pairwise (fun p q => strLe p q = true)
  | [] => List.Pairwise.nil
  | x :: xs => pairwise_insertSorted x (sortStrings xs) (sortStrings_pairwise xs)

/-! ### The filter stages only ever select sublists -/

theorem rangeFilter_pairwise (n : Nat) (p : Nat → Bool) :
    ((List.range n).filter p).Pairwise (· < ·) :=
  (List.pairwise_lt_range n).filter p

theorem audioThresholdFilter_sublist (la : String → List A) (t : Int)
    (a m a1 m1 : List String) (h : audioThresholdFilter la t a m = some (a1, m1)) :
    a1.Sublist a ∧ m1.Sublist m := by
  simp only [audioThresholdFilter] at h
  cases h1 : pySelect a ((List.range a.length).filter
      (fun idx => decide (t < (a.map (fun f => ((la f).length : Int))).getD idx 0))) with
  | none => rw [h1] at h; exact absurd h (by simp)
  | some ra =>
    cases h2 : pySelect m ((List.range a.length).filter
        (fun idx => decide (t < (a.map (fun f => ((la f).length : Int))).getD idx 0))) with
    | none => rw [h1, h2] at h; exact absurd h (by simp)
    | some rm =>
      rw [h1, h2] at h
      simp only [Option.some.injEq, Prod.mk.injEq] at h
      rw [← h.1, ← h.2]
      exact ⟨pySelect_sublist a _ ra (rangeFilter_pairwise _ _) h1,
             pySelect_sublist m _ rm (rangeFilter_pairwise _ _) h2⟩

theorem melThresholdFilter_sublist (lm : String → List M) (t : Int)
    (a m a1 m1 : List String) (h : melThresholdFilter lm t a m = some (a1, m1)) :
    a1.Sublist a ∧ m1.Sublist m := by
  simp only [melThresholdFilter] at h
  cases h1 : pySelect a ((List.range m.length).filter
      (fun idx => decide (t < (m.map (fun f => ((lm f).length : Int))).getD idx 0))) with
  | none => rw [h1] at h; exact absurd h (by simp)
  | some ra =>
    cases h2 : pySelect m ((List.range m.length).filter
        (fun idx => decide (t < (m.map (fun f => ((lm f).length : Int))).getD idx 0))) with
    | none => rw [h1, h2] at h; exact absurd h (by simp)
    | some rm =>
      rw [h1, h2] at h
      simp only [Option.some.injEq, Prod.mk.injEq] at h
      rw [← h.1, ← h.2]
      exact ⟨pySelect_sublist a _ ra (rangeFilter_pairwise _ _) h1,
             pySelect_sublist m _ rm (rangeFilter_pairwise _ _) h2⟩

/-- Inversion of a successful AudioMelDataset construction: the stored
file lists come out of the two filter stages applied to the sorted match
lists, both asserts passed, and the utterance ids are derived from the
audio query convention. -/
theorem AudioMelDataset.init_ok_inv
    (ff : String → String → List String) (root aq mq : String)
    (la : String → List A) (lm : String → List M)
    (athr mthr : Option Int) (ru : Bool) (d : AudioMelDataset A M)
    (h : AudioMelDataset.init ff root aq mq la lm athr mthr ru = .ok d) :
    ∃ a1 m1,
      (match athr with
       | none => some (sortStrings (ff root aq), sortStrings (ff root mq))
       | some t => audioThresholdFilter la t (sortStrings (ff root aq))
                     (sortStrings (ff root mq)))
        = some (a1, m1) ∧
      (match mthr with
       | none => some (a1, m1)
       | some t => melThresholdFilter lm t a1 m1) = some (d.audio_files, d.mel_files) ∧
      d.audio_files.length ≠ 0 ∧
      d.audio_files.length = d.mel_files.length ∧
      d.utt_ids = (if strContains aq ".npy" then
                     d.audio_files.map (fun f => pyReplace (pyBasename f) "-wave.npy" "")
                   else d.audio_files.map (fun f => splitextRoot (pyBasename f))) ∧
      d.audio_load_fn = la ∧ d.mel_load_fn = lm ∧ d.return_utt_id = ru := by
  simp only [AudioMelDataset.init] at h
  cases athr with
  | none =>
    dsimp only at h
    cases mthr with
    | none =>
      dsimp only at h
      by_cases hz : (sortStrings (ff root aq)).length = 0
      · rw [if_pos hz] at h; exact absurd h (by simp)
      · rw [if_neg hz] at h
        by_cases hne : (sortStrings (ff root aq)).length ≠ (sortStrings (ff root mq)).length
        · rw [if_pos hne] at h; exact absurd h (by simp)
        · rw [if_neg hne] at h
          injection h with hd
          subst hd
          exact ⟨sortStrings (ff root aq), sortStrings (ff root mq), rfl, rfl, hz,
                 by dsimp only; exact not_ne_iff.mp hne, rfl, rfl, rfl, rfl⟩
    | some u =>
      dsimp only at h
      cases hmel : melThresholdFilter lm u (sortStrings (ff root aq))
          (sortStrings (ff root mq)) with
      | none => rw [hmel] at h; exact absurd h (by simp)
      | some pr =>
        obtain ⟨a2, m2⟩ := pr
        rw [hmel] at h
        dsimp only at h
        by_cases hz : a2.length = 0
        · rw [if_pos hz] at h; exact absurd h (by simp)
        · rw [if_neg hz] at h
          by_cases hne : a2.length ≠ m2.length
          · rw [if_pos hne] at h; exact absurd h (by simp)
          · rw [if_neg hne] at h
            injection h with hd
            subst hd
            exact ⟨sortStrings (ff root aq), sortStrings (ff root mq), rfl, hmel, hz,
                   by dsimp only; exact not_ne_iff.mp hne, rfl, rfl, rfl, rfl⟩
  | some t =>
    dsimp only at h
    cases haud : audioThresholdFilter la t (sortStrings (ff root aq))
        (sortStrings (ff root mq)) with
    | none => rw [haud] at h; exact absurd h (by simp)
    | some pr =>
      obtain ⟨a1, m1⟩ := pr
      rw [haud] at h
      dsimp only at h
      cases mthr with
      | none =>
        dsimp only at h
        by_cases hz : a1.length = 0
        · rw [if_pos hz] at h; exact absurd h (by simp)
        · rw [if_neg hz] at h
          by_cases hne : a1.length ≠ m1.length
          · rw [if_pos hne] at h; exact absurd h (by simp)
          · rw [if_neg hne] at h
            injection h with hd
            subst hd
            exact ⟨a1, m1, haud, rfl, hz, by dsimp only; exact not_ne_iff.mp hne,
                   rfl, rfl, rfl, rfl⟩
      | some u =>
        dsimp only at h
        cases hmel : melThresholdFilter lm u a1 m1 with
        | none => rw [hmel] at h; exact absurd h (by simp)
        | some pr2 =>
          obtain ⟨a2, m2⟩ := pr2
          rw [hmel] at h
          dsimp only at h
          by_cases hz : a2.length = 0
          · rw [if_pos hz] at h; exact absurd h (by simp)
          · rw [if_neg hz] at h
            by_cases hne : a2.length ≠ m2.length
            · rw [if_pos hne] at h; exact absurd h (by simp)
            · rw [if_neg hne] at h
              injection h with hd
              subst hd
              exact ⟨a1, m1, haud, hmel, hz, by dsimp only; exact not_ne_iff.mp hne,
                     rfl, rfl, rfl, rfl⟩

/-! ### Generator lemmas -/

theorem generatorGo_cons (d : AudioMelDataset A M) (i : Nat) (uid : String)
    (rest : List String) :
    generatorGo d i (uid :: rest)
      = match d.audio_files[i]? with
        | none => ([], some .indexError)
        | some audio_file =>
          match d.mel_files[i]? with
          | none => ([], some .indexError)
          | some mel_file =>
            ((if d.return_utt_id then
                AMItem.withId uid (d.audio_load_fn audio_file) (d.mel_load_fn mel_file)
              else AMItem.noId (d.audio_load_fn audio_file) (d.mel_load_fn mel_file))
              :: (generatorGo d (i + 1) rest).1,
             (generatorGo d (i + 1) rest).2) := rfl

theorem generatorGo_ok (d : AudioMelDataset A M) :
    ∀ (ids : List String) (i : Nat),
    i + ids.length ≤ d.audio_files.length → i + ids.length ≤ d.mel_files.length →
    (generatorGo d i ids).2 = none ∧
    (generatorGo d i ids).1.map amPayload
      = (((d.audio_files.drop i).zip (d.mel_files.drop i)).take ids.length).map
          (fun pr => (d.audio_load_fn pr.1, d.mel_load_fn pr.2)) ∧
    (generatorGo d i ids).1.length = ids.length
  | [], i, _, _ => ⟨rfl, by simp [generatorGo], rfl⟩
  | uid :: rest, i, ha, hm => by
    have hia : i < d.audio_files.length := by
      have := ha; simp only [List.length_cons] at this; omega
    have him : i < d.mel_files.length := by
      have := hm; simp only [List.length_cons] at this; omega
    obtain ⟨ih1, ih2, ih3⟩ := generatorGo_ok d rest (i + 1)
      (by have := ha; simp only [List.length_cons] at this; omega)
      (by have := hm; simp only [List.length_cons] at this; omega)
    rw [generatorGo_cons, List.getElem?_eq_getElem hia, List.getElem?_eq_getElem him]
    refine ⟨ih1, ?_, ?_⟩
    · rw [List.drop_eq_getElem_cons hia, List.drop_eq_getElem_cons him,
          List.zip_cons_cons, List.length_cons, List.take_succ_cons, List.map_cons,
          List.map_cons, ← ih2]
      cases hru : d.return_utt_id <;> simp [amPayload]
    · rw [List.length_cons, List.length_cons, ih3]

theorem generatorGo_err (d : AudioMelDataset A M)
    (hml : d.mel_files.length = d.audio_files.length) :
    ∀ (ids : List String) (i : Nat),
    i ≤ d.audio_files.length → d.audio_files.length < i + ids.length →
    (generatorGo d i ids).2 = some .indexError ∧
    (generatorGo d i ids).1.length = d.audio_files.length - i
  | [], i, hi, hlt => by simp only [List.length_nil] at hlt; omega
  | uid :: rest, i, hi, hlt => by
    rw [generatorGo_cons]
    by_cases hia : i < d.audio_files.length
    · have him : i < d.mel_files.length := by omega
      rw [List.getElem?_eq_getElem hia, List.getElem?_eq_getElem him]
      obtain ⟨ih1, ih2⟩ := generatorGo_err d hml rest (i + 1) (by omega)
        (by have := hlt; simp only [List.length_cons] at this; omega)
      refine ⟨ih1, ?_⟩
      rw [List.length_cons, ih2]
      omega
    · rw [List.getElem?_eq_none (by omega)]
      refine ⟨rfl, ?_⟩
      simp only [List.length_nil]
      omega

theorem generatorGo_congr (d d2 : AudioMelDataset A M)
    (h1 : d2.audio_files = d.audio_files) (h2 : d2.mel_files = d.mel_files)
    (h3 : d2.audio_load_fn = d.audio_load_fn) (h4 : d2.mel_load_fn = d.mel_load_fn)
    (h5 : d2.return_utt_id = d.return_utt_id) :
    ∀ (ids : List String) (i : Nat), generatorGo d2 i ids = generatorGo d i ids
  | [], _ => rfl
  | uid :: rest, i => by
    rw [generatorGo_cons, generatorGo_cons, h1, h2, h3, h4, h5,
        generatorGo_congr d d2 h1 h2 h3 h4 h5 rest (i + 1)]

/-! ### Claim theorems about the dataset adapters, part 2 -/

/-- C6: iteration is deterministic and stable.  Every successful
construction stores lexicographically sorted audio and mel file lists
(sorted discovery, and the filter stages only select index-ordered
sublists), and the generator output is a function of the stored file
lists, the loader functions and the id flag alone, so two runs over equal
such state yield identical record sequences. -/
theorem c6_deterministic_sorted_iteration
    (ff : String → String → List String) (root aq mq : String)
    (la : String → List A) (lm : String → List M)
    (athr mthr : Option Int) (ru : Bool) (d : AudioMelDataset A M)
    (h : AudioMelDataset.init ff root aq mq la lm athr mthr ru = .ok d) :
    d.audio_files.Pairwise (fun p q => strLe p q = true) ∧
    d.mel_files.Pairwise (fun p q => strLe p q = true) ∧
    (∀ (d2 : AudioMelDataset A M), d2.audio_files = d.audio_files →
       d2.mel_files = d.mel_files → d2.audio_load_fn = d.audio_load_fn →
       d2.mel_load_fn = d.mel_load_fn → d2.return_utt_id = d.return_utt_id →
       ∀ ids, d2.generator ids = d.generator ids) := by
  obtain ⟨a1, m1, hs1, hs2, _, _, _, _, _, _⟩ :=
    AudioMelDataset.init_ok_inv ff root aq mq la lm athr mthr ru d h
  have hstage1 : a1.Sublist (sortStrings (ff root aq)) ∧
      m1.Sublist (sortStrings (ff root mq)) := by
    cases athr with
    | none =>
      simp only [Option.some.injEq, Prod.mk.injEq] at hs1
      rw [← hs1.1, ← hs1.2]
      exact ⟨List.Sublist.refl _, List.Sublist.refl _⟩
    | some t => exact audioThresholdFilter_sublist la t _ _ a1 m1 hs1
  have hstage2 : d.audio_files.Sublist a1 ∧ d.mel_files.Sublist m1 := by
    cases mthr with
    | none =>
      simp only [Option.some.injEq, Prod.mk.injEq] at hs2
      rw [hs2.1, hs2.2]
      exact ⟨List.Sublist.refl _, List.Sublist.refl _⟩
    | some u => exact melThresholdFilter_sublist lm u a1 m1 _ _ hs2
  refine ⟨?_, ?_, ?_⟩
  · exact List.Pairwise.sublist (hstage2.1.trans hstage1.1) (sortStrings_pairwise _)
  · exact List.Pairwise.sublist (hstage2.2.trans hstage1.2) (sortStrings_pairwise _)
  · intro d2 e1 e2 e3 e4 e5 ids
    exact generatorGo_congr d d2 e1 e2 e3 e4 e5 ids 0

def wLoadC6a : String → List Int := fun _ => [0]

def wLoadC6m : String → List Int := fun _ => [0]

def wDatasetC6 : AudioMelDataset Int Int :=
  { utt_ids := ["a", "b"], audio_files := ["r/a.h5", "r/b.h5"],
    mel_files := ["r/a.h5", "r/b.h5"],
    audio_load_fn := wLoadC6a, mel_load_fn := wLoadC6m, return_utt_id := false }

/-- Witness: c6_deterministic_sorted_iteration on a concrete two-file
directory discovered in unsorted order. -/
theorem c6_deterministic_sorted_iteration_witness :
    AudioMelDataset.init (fun _ _ => ["r/b.h5", "r/a.h5"]) "r" "*.h5" "*.h5"
      wLoadC6a wLoadC6m none none false = .ok wDatasetC6 ∧
    (wDatasetC6.audio_files.Pairwise (fun p q => strLe p q = true) ∧
     wDatasetC6.mel_files.Pairwise (fun p q => strLe p q = true) ∧
     (∀ (d2 : AudioMelDataset Int Int), d2.audio_files = wDatasetC6.audio_files →
        d2.mel_files = wDatasetC6.mel_files → d2.audio_load_fn = wDatasetC6.audio_load_fn →
        d2.mel_load_fn = wDatasetC6.mel_load_fn → d2.return_utt_id = wDatasetC6.return_utt_id →
        ∀ ids, d2.generator ids = wDatasetC6.generator ids)) :=
  ⟨rfl, c6_deterministic_sorted_iteration (fun _ _ => ["r/b.h5", "r/a.h5"]) "r" "*.h5" "*.h5"
     wLoadC6a wLoadC6m none none false wDatasetC6 rfl⟩

/-- C7 counterexample: the code derives the id with str.replace, which
removes every occurrence of "-wave.npy", not just a trailing suffix.  For
the matched file utt1-wave.npy-wave.npy the code yields id utt1, while the
claim's suffix-stripping rule (specStripWaveSuffix, modelled from the
spec's words) yields utt1-wave.npy. -/
theorem c7_id_derivation_counterexample :
    (AudioMelDataset.init (fun _ _ => ["utt1-wave.npy-wave.npy"]) "root" "*-wave.npy"
        "*-wave.npy" (fun _ => ([0] : List Int)) (fun _ => ([0] : List Int)) none none
        false).map AudioMelDataset.utt_ids = Except.ok ["utt1"] ∧
    specStripWaveSuffix "utt1-wave.npy-wave.npy" = "utt1-wave.npy" ∧
    ("utt1" : String) ≠ "utt1-wave.npy" :=
  ⟨rfl, by decide, by decide⟩

/-- C7 amended: utterance-id derivation is keyed off the audio query
string.  If the audio query contains ".npy", the id of each retained file
is its basename with every occurrence of "-wave.npy" removed (which for
the usual filenames, where the token occurs exactly once and as the final
suffix, equals stripping that suffix: utt1-wave.npy yields utt1);
otherwise the id is the basename without its extension (utt2.h5 yields
utt2). -/
theorem c7_id_derivation (ff : String → String → List String) (root aq mq : String)
    (la : String → List A) (lm : String → List M)
    (athr mthr : Option Int) (ru : Bool) (d : AudioMelDataset A M)
    (h : AudioMelDataset.init ff root aq mq la lm athr mthr ru = .ok d) :
    (strContains aq ".npy" = true →
       d.utt_ids = d.audio_files.map (fun f => pyReplace (pyBasename f) "-wave.npy" "")) ∧
    (strContains aq ".npy" = false →
       d.utt_ids = d.audio_files.map (fun f => splitextRoot (pyBasename f))) := by
  obtain ⟨a1, m1, _, _, _, _, hids, _, _, _⟩ :=
    AudioMelDataset.init_ok_inv ff root aq mq la lm athr mthr ru d h
  constructor
  · intro hc; rw [hids, if_pos hc]
  · intro hc; rw [hids, if_neg (by rw [hc]; exact Bool.false_ne_true)]

def wLoadC7 : String → List Int := fun _ => [0]

def wDatasetC7npy : AudioMelDataset Int Int :=
  { utt_ids := ["utt1"], audio_files := ["utt1-wave.npy"], mel_files := ["utt1-wave.npy"],
    audio_load_fn := wLoadC7, mel_load_fn := wLoadC7, return_utt_id := false }

def wDatasetC7h5 : AudioMelDataset Int Int :=
  { utt_ids := ["utt2"], audio_files := ["utt2.h5"], mel_files := ["utt2.h5"],
    audio_load_fn := wLoadC7, mel_load_fn := wLoadC7, return_utt_id := false }

/-- Witness: c7_id_derivation on the spec's two concrete examples,
utt1-wave.npy yielding utt1 under a .npy query and utt2.h5 yielding utt2
under a generic query. -/
theorem c7_id_derivation_witness :
    AudioMelDataset.init (fun _ _ => ["utt1-wave.npy"]) "r" "*-wave.npy" "*-wave.npy"
      wLoadC7 wLoadC7 none none false = .ok wDatasetC7npy ∧
    AudioMelDataset.init (fun _ _ => ["utt2.h5"]) "r" "*.h5" "*.h5"
      wLoadC7 wLoadC7 none none false = .ok wDatasetC7h5 ∧
    wDatasetC7npy.utt_ids = ["utt1"] ∧
    wDatasetC7h5.utt_ids = ["utt2"] ∧
    (strContains "*-wave.npy" ".npy" = true →
       wDatasetC7npy.utt_ids
         = wDatasetC7npy.audio_files.map (fun f => pyReplace (pyBasename f) "-wave.npy" "")) ∧
    (strContains "*.h5" ".npy" = false →
       wDatasetC7h5.utt_ids
         = wDatasetC7h5.audio_files.map (fun f => splitextRoot (pyBasename f))) :=
  ⟨rfl, rfl, rfl, rfl,
   fun hc => (c7_id_derivation (fun _ _ => ["utt1-wave.npy"]) "r" "*-wave.npy" "*-wave.npy"
     wLoadC7 wLoadC7 none none false wDatasetC7npy rfl).1 hc,
   fun hc => (c7_id_derivation (fun _ _ => ["utt2.h5"]) "r" "*.h5" "*.h5"
     wLoadC7 wLoadC7 none none false wDatasetC7h5 rfl).2 hc⟩

/-- C8: a successful construction that retained N audio and N mel files
reports dataset length N, and the generator run over the full stored id
list yields exactly N records without error, the i-th carrying the audio
loaded from the i-th stored (sorted) audio file and the mel loaded from
the i-th stored mel file. -/
theorem c8_generator_yields_all (ff : String → String → List String) (root aq mq : String)
    (la : String → List A) (lm : String → List M)
    (athr mthr : Option Int) (ru : Bool) (d : AudioMelDataset A M) (N : Nat)
    (h : AudioMelDataset.init ff root aq mq la lm athr mthr ru = .ok d)
    (hA : d.audio_files.length = N) (hM : d.mel_files.length = N) :
    d.get_len_dataset = N ∧
    (d.generator d.utt_ids).2 = none ∧
    (d.generator d.utt_ids).1.length = N ∧
    (d.generator d.utt_ids).1.map amPayload
      = (d.audio_files.zip d.mel_files).map
          (fun pr => (d.audio_load_fn pr.1, d.mel_load_fn pr.2)) := by
  obtain ⟨a1, m1, _, _, _, _, hids, _, _, _⟩ :=
    AudioMelDataset.init_ok_inv ff root aq mq la lm athr mthr ru d h
  have hlen : d.utt_ids.length = N := by
    rw [hids]
    by_cases hc : strContains aq ".npy" <;> simp [hc, hA]
  obtain ⟨h1, h2, h3⟩ := generatorGo_ok d d.utt_ids 0 (by omega) (by omega)
  refine ⟨hlen, h1, by rw [AudioMelDataset.generator, h3, hlen], ?_⟩
  rw [AudioMelDataset.generator, h2, List.drop_zero, List.drop_zero, hlen]
  have hz : (d.audio_files.zip d.mel_files).length = N := by
    rw [List.length_zip, hA, hM, Nat.min_self]
  rw [← hz, List.take_length]

def wLoadC8a : String → List Int := fun f => if f = "r/a.h5" then [1, 2] else [3]

def wLoadC8m : String → List Int := fun f => if f = "r/a.h5" then [4] else [5, 6]

def wDatasetC8 : AudioMelDataset Int Int :=
  { utt_ids := ["a", "b"], audio_files := ["r/a.h5", "r/b.h5"],
    mel_files := ["r/a.h5", "r/b.h5"],
    audio_load_fn := wLoadC8a, mel_load_fn := wLoadC8m, return_utt_id := false }

/-- Witness: c8_generator_yields_all on a concrete two-file dataset. -/
theorem c8_generator_yields_all_witness :
    AudioMelDataset.init (fun _ _ => ["r/b.h5", "r/a.h5"]) "r" "*.h5" "*.h5"
      wLoadC8a wLoadC8m none none false = .ok wDatasetC8 ∧
    wDatasetC8.audio_files.length = 2 ∧ wDatasetC8.mel_files.length = 2 ∧
    (wDatasetC8.get_len_dataset = 2 ∧
     (wDatasetC8.generator wDatasetC8.utt_ids).2 = none ∧
     (wDatasetC8.generator wDatasetC8.utt_ids).1.length = 2 ∧
     (wDatasetC8.generator wDatasetC8.utt_ids).1.map amPayload
       = (wDatasetC8.audio_files.zip wDatasetC8.mel_files).map
           (fun pr => (wDatasetC8.audio_load_fn pr.1, wDatasetC8.mel_load_fn pr.2))) :=
  ⟨rfl, rfl, rfl,
   c8_generator_yields_all (fun _ _ => ["r/b.h5", "r/a.h5"]) "r" "*.h5" "*.h5"
     wLoadC8a wLoadC8m none none false wDatasetC8 2 rfl rfl rfl⟩

/-- C9 (implicit): the generator selects files positionally and ignores
the values of the supplied ids.  For any id list no longer than the
dataset size it yields one record per position, loading the first k files
in stored order, so two id lists of equal length produce the same
payloads; for a longer id list it raises the index error at the first
position past the dataset size, after yielding exactly dataset-size
records. -/
theorem c9_generator_positional (d : AudioMelDataset A M)
    (hA : d.audio_files.length = d.get_len_dataset)
    (hM : d.mel_files.length = d.get_len_dataset) (ids ids2 : List String) :
    (ids.length ≤ d.get_len_dataset →
       (d.generator ids).2 = none ∧
       (d.generator ids).1.map amPayload
         = ((d.audio_files.zip d.mel_files).take ids.length).map
             (fun pr => (d.audio_load_fn pr.1, d.mel_load_fn pr.2)) ∧
       (ids2.length = ids.length →
          (d.generator ids2).1.map amPayload = (d.generator ids).1.map amPayload)) ∧
    (d.get_len_dataset < ids.length →
       (d.generator ids).2 = some .indexError ∧
       (d.generator ids).1.length = d.get_len_dataset) := by
  constructor
  · intro hle
    obtain ⟨h1, h2, _⟩ := generatorGo_ok d ids 0 (by omega) (by omega)
    refine ⟨h1, ?_, ?_⟩
    · rw [AudioMelDataset.generator, h2, List.drop_zero, List.drop_zero]
    · intro heq
      obtain ⟨_, h2b, _⟩ := generatorGo_ok d ids2 0 (by omega) (by omega)
      rw [AudioMelDataset.generator, AudioMelDataset.generator, h2, h2b,
          List.drop_zero, List.drop_zero, heq]
  · intro hgt
    obtain ⟨h1, h2⟩ := generatorGo_err d (by omega) ids 0 (by omega) (by omega)
    rw [AudioMelDataset.generator]
    exact ⟨h1, by rw [h2]; omega⟩

def wDatasetC9 : AudioMelDataset Int Int :=
  { utt_ids := ["a", "b"], audio_files := ["r/a.h5", "r/b.h5"],
    mel_files := ["r/a.h5", "r/b.h5"],
    audio_load_fn := wLoadC6a, mel_load_fn := wLoadC6m, return_utt_id := true }

/-- Witness: c9_generator_positional on a concrete two-file dataset, with
a short id list and an over-long id list. -/
theorem c9_generator_positional_witness :
    wDatasetC9.audio_files.length = wDatasetC9.get_len_dataset ∧
    wDatasetC9.mel_files.length = wDatasetC9.get_len_dataset ∧
    ((["x"] : List String).length ≤ wDatasetC9.get_len_dataset →
       (wDatasetC9.generator ["x"]).2 = none ∧
       (wDatasetC9.generator ["x"]).1.map amPayload
         = ((wDatasetC9.audio_files.zip wDatasetC9.mel_files).take
              (["x"] : List String).length).map
             (fun pr => (wDatasetC9.audio_load_fn pr.1, wDatasetC9.mel_load_fn pr.2)) ∧
       ((["y"] : List String).length = (["x"] : List String).length →
          (wDatasetC9.generator ["y"]).1.map amPayload
            = (wDatasetC9.generator ["x"]).1.map amPayload)) ∧
    (wDatasetC9.get_len_dataset < (["x"] : List String).length →
       (wDatasetC9.generator ["x"]).2 = some .indexError ∧
       (wDatasetC9.generator ["x"]).1.length = wDatasetC9.get_len_dataset) ∧
    (wDatasetC9.get_len_dataset < (["p", "q", "r"] : List String).length →
       (wDatasetC9.generator ["p", "q", "r"]).2 = some .indexError ∧
       (wDatasetC9.generator ["p", "q", "r"]).1.length = wDatasetC9.get_len_dataset) :=
  ⟨rfl, rfl,
   (c9_generator_positional wDatasetC9 rfl rfl ["x"] ["y"]).1,
   (c9_generator_positional wDatasetC9 rfl rfl ["x"] ["y"]).2,
   (c9_generator_positional wDatasetC9 rfl rfl ["p", "q", "r"] ["y"]).2⟩

end TTS
